import Mathlib

/-!
Shallow embedding of the capbot trading engine (src/capbot) in Lean 4,
with theorems checking the natural-language specification against it.

Python floats are modelled as rationals; a value that `math.isfinite`
rejects (NaN or ±inf) is modelled as `none` in `FVal := Option ℚ`.
Timestamps are modelled as integers (minutes), ordered as timestamps are.
-/

namespace Capbot

/-- A Python float as the code distinguishes them: `some q` is a finite
value, `none` stands for NaN or ±inf (`_isfinite` returns `False`). -/
abbrev FVal := Option ℚ

/-- `float(x) if _isfinite(x) else d` — the sanitising idiom of
`capbot/domain/risk.py`. -/
def sanitize (x : FVal) (d : ℚ) : ℚ := x.getD d

/-- Embedding of `calc_position_size` from `src/capbot/domain/risk.py`.
`max_size` is `Option FVal`: the outer `none` is Python's `None`,
an inner `none` a non-finite float. -/
def calc_position_size (bot_equity risk_pct r_points value_per_point_per_size : FVal)
    (min_size : FVal) (max_size : Option FVal) : ℚ :=
  let be := sanitize bot_equity 0
  let rp0 := sanitize risk_pct 0
  let r := sanitize r_points 0
  let vpps := sanitize value_per_point_per_size 0
  let rp := max 0 (min 1 rp0)
  let ms := max 0 (sanitize min_size 1)
  let mx : Option ℚ :=
    match max_size with
    | none => none
    | some f =>
      match f with
      | none => none
      | some q => some (if q < ms then ms else q)
  if be ≤ 0 ∨ rp ≤ 0 ∨ r ≤ 0 ∨ vpps ≤ 0 then ms
  else
    let denom := r * vpps
    if denom ≤ 0 then ms
    else
      let raw := (be * rp) / denom
      if raw ≤ 0 then ms
      else
        let size : ℚ := max ms ((⌊raw⌋ : ℤ) : ℚ)
        match mx with
        | some m => min m size
        | none => size

/-- Trade direction; the engine upper-cases the stored string and the code
treats every non-`"BUY"` direction by its `else` (SELL) branch. -/
inductive Direction where
  | BUY
  | SELL
deriving DecidableEq, Repr

/-- `profit_points` from `src/capbot/domain/trailing.py`. -/
def profit_points (direction : Direction) (entry_px live_px : ℚ) : ℚ :=
  match direction with
  | .BUY => live_px - entry_px
  | .SELL => entry_px - live_px

/-- The direction-dependent `better` comparison of `maybe_trail_option_a`. -/
def betterSL (direction : Direction) (new old : ℚ) : Bool :=
  match direction with
  | .BUY => decide (old < new)
  | .SELL => decide (new < old)

/-- The `flags` dict returned by `maybe_trail_option_a`. -/
structure TrailFlags where
  trail_1r_done : Bool
  trail_2r_done : Bool
deriving DecidableEq, Repr

/-- Result of `maybe_trail_option_a`: `(moved, new_sl, flags)`. -/
structure TrailARes where
  moved : Bool
  sl : ℚ
  flags : TrailFlags
deriving DecidableEq, Repr

/-- Embedding of `maybe_trail_option_a` from `src/capbot/domain/trailing.py`:
at +1R profit the stop moves to breakeven + buffer, at +2R to +1R + buffer,
each move latched by its flag; a move only happens when it improves the stop. -/
def maybe_trail_option_a (direction : Direction) (entry live r_points current_sl : ℚ)
    (trail_1r_done trail_2r_done : Bool) (buffer_r : ℚ) : TrailARes :=
  if r_points ≤ 0 then ⟨false, current_sl, trail_1r_done, trail_2r_done⟩
  else
    let ppts := profit_points direction entry live
    if ppts ≤ 0 then ⟨false, current_sl, trail_1r_done, trail_2r_done⟩
    else
      let buffer_pts := buffer_r * r_points
      let sl_be := match direction with
        | .BUY => entry + buffer_pts
        | .SELL => entry - buffer_pts
      let sl_1r := match direction with
        | .BUY => entry + r_points + buffer_pts
        | .SELL => entry - r_points - buffer_pts
      -- the 2R block (runs first in the source)
      let hit2 := (!trail_2r_done) && decide (2 * r_points ≤ ppts)
      let sl2 := if hit2 && betterSL direction sl_1r current_sl then sl_1r else current_sl
      let ch2 := hit2 && betterSL direction sl_1r current_sl
      let t2 := trail_2r_done || hit2
      let t1 := trail_1r_done || hit2
      -- the 1R block (uses the flags as updated by the 2R block)
      let hit1 := (!t1) && decide (r_points ≤ ppts)
      let sl1 := if hit1 && betterSL direction sl_be sl2 then sl_be else sl2
      let ch1 := hit1 && betterSL direction sl_be sl2
      let t1f := t1 || hit1
      ⟨ch2 || ch1, sl1, t1f, t2⟩

/-- The per-position trailing state the engine threads through successive
`maybe_trail_option_a` calls (`pos["sl_local"]`, `pos["trail_1r_done"]`,
`pos["trail_2r_done"]` in `run_bot`). -/
structure TrailState where
  sl : ℚ
  t1 : Bool
  t2 : Bool
deriving DecidableEq, Repr

/-- One engine trailing update: call `maybe_trail_option_a` on the live price
and store the returned stop and flags back into the position state, as
`run_bot` does in its `option_a` trailing branch. -/
def trailStep (direction : Direction) (entry r_points buffer_r : ℚ)
    (s : TrailState) (live : ℚ) : TrailState :=
  let r := maybe_trail_option_a direction entry live r_points s.sl s.t1 s.t2 buffer_r
  ⟨r.sl, r.flags.trail_1r_done, r.flags.trail_2r_done⟩

/-- A sequence of engine trailing updates threading stop and flags. -/
def trailRun (direction : Direction) (entry r_points buffer_r : ℚ)
    (s : TrailState) (lives : List ℚ) : TrailState :=
  lives.foldl (trailStep direction entry r_points buffer_r) s

/-- The +1R threshold "fires" in a step when the step latches
`trail_1r_done` from `false` to `true`. -/
def fires1R (direction : Direction) (entry r_points buffer_r : ℚ)
    (s : TrailState) (live : ℚ) : Bool :=
  !s.t1 && (trailStep direction entry r_points buffer_r s live).t1

/-- The +2R threshold "fires" in a step when the step latches
`trail_2r_done` from `false` to `true`. -/
def fires2R (direction : Direction) (entry r_points buffer_r : ℚ)
    (s : TrailState) (live : ℚ) : Bool :=
  !s.t2 && (trailStep direction entry r_points buffer_r s live).t2

/-- Result tuple of `_trail_sp500_spec`: `(sl, be_armed, max_fav, min_fav)`. -/
structure TrailSpecRes where
  sl : ℚ
  be_armed : Bool
  max_fav : ℚ
  min_fav : ℚ
deriving DecidableEq, Repr

/-- Embedding of `_trail_sp500_spec` from `src/capbot/app/engine.py`
(end-of-bar ATR trailing from the favorable extreme, plus breakeven lock). -/
def trail_sp500_spec (direction : Direction) (entry atr_entry sl : ℚ)
    (be_armed : Bool) (max_fav min_fav bar_high bar_low : ℚ) : TrailSpecRes :=
  if atr_entry ≤ 0 then ⟨sl, be_armed, max_fav, min_fav⟩
  else
    match direction with
    | .BUY =>
      let mf := max max_fav bar_high
      let ba := be_armed || decide (entry < bar_high)
      let sl1 := max sl (mf - 1 * atr_entry)
      let sl2 := if ba then max sl1 entry else sl1
      ⟨sl2, ba, mf, min_fav⟩
    | .SELL =>
      let mf := min min_fav bar_low
      let ba := be_armed || decide (bar_low < entry)
      let sl1 := min sl (mf + 1 * atr_entry)
      let sl2 := if ba then min sl1 entry else sl1
      ⟨sl2, ba, max_fav, mf⟩

/-- Circuit-breaker state inside the persisted engine state:
`consec_losses` and `cooldown_until_iso` (timestamps as integer minutes). -/
structure CbState where
  consec_losses : ℕ
  cooldown_until : Option ℤ
deriving DecidableEq, Repr

/-- Embedding of the circuit-breaker transition in `_handle_position_exit`
(`src/capbot/app/engine.py`): a losing exit increments `consec_losses`,
a non-losing one resets it to 0; if the stored counter reaches `cb_losses`
the cooldown deadline becomes `now + cb_cooldown`. -/
def circuit_breaker_step (s : CbState) (profit_cash : ℚ) (cb_losses : ℕ)
    (now cb_cooldown : ℤ) : CbState :=
  let consec := if profit_cash < 0 then s.consec_losses + 1 else 0
  if consec ≥ cb_losses then ⟨consec, some (now + cb_cooldown)⟩
  else ⟨consec, s.cooldown_until⟩

/-- Exit reasons of the stop/target check in `run_bot`. -/
inductive ExitReason where
  | EXIT_SL
  | EXIT_TP
deriving DecidableEq, Repr

/-- `hit_sl` from `run_bot`: the closed bar crosses the local stop level. -/
def hit_sl (direction : Direction) (bar_high bar_low sl_local : ℚ) : Bool :=
  match direction with
  | .BUY => decide (bar_low ≤ sl_local)
  | .SELL => decide (bar_high ≥ sl_local)

/-- `hit_tp` from `run_bot`: the closed bar crosses the local target level. -/
def hit_tp (direction : Direction) (bar_high bar_low tp_local : ℚ) : Bool :=
  match direction with
  | .BUY => decide (bar_high ≥ tp_local)
  | .SELL => decide (bar_low ≤ tp_local)

/-- Embedding of the stop/target exit decision in `run_bot`
(`src/capbot/app/engine.py`, the `hit_sl or hit_tp` block): `none` when
neither level is crossed, otherwise the reason and exit price chosen by the
`tp_first` tie-break. -/
def sl_tp_exit (tp_first : Bool) (direction : Direction)
    (bar_high bar_low sl_local tp_local : ℚ) : Option (ExitReason × ℚ) :=
  let hs := hit_sl direction bar_high bar_low sl_local
  let ht := hit_tp direction bar_high bar_low tp_local
  if hs || ht then
    some (if tp_first then
            (if ht then (.EXIT_TP, tp_local) else (.EXIT_SL, sl_local))
          else
            (if hs then (.EXIT_SL, sl_local) else (.EXIT_TP, tp_local)))
  else none

/-- The dict `_extract_open_position_for_epic` returns for an open broker
position: `deal_id` is always present and non-empty (the helper returns a
position only when it found a truthy deal id and stringifies it); the other
fields may be `None`. -/
structure BrokerPos where
  deal_id : String
  direction : Option String
  size : Option ℚ
  sl_local : Option ℚ
  tp_local : Option ℚ
  entry_price_est : Option ℚ
deriving DecidableEq, Repr

/-- The persisted `st["pos"]` dict: every field may be absent (the empty
dict `{}` is the flat state). -/
structure LocalPos where
  deal_id : Option String := none
  direction : Option String := none
  size : Option ℚ := none
  sl_local : Option ℚ := none
  tp_local : Option ℚ := none
  entry_price_est : Option ℚ := none
  recovered_from_broker : Bool := false
deriving DecidableEq, Repr

/-- `st["pos"] = {}`. -/
def emptyPos : LocalPos := {}

/-- Adopting a broker position into local state during reconciliation:
`st["pos"] = {k: v for k, v in broker_pos.items() if v is not None}` plus
`st["pos"]["recovered_from_broker"] = True` (fields that are `None` in the
broker dict are simply absent afterwards). -/
def adoptBroker (bp : BrokerPos) : LocalPos :=
  { deal_id := some bp.deal_id
    direction := bp.direction
    size := bp.size
    sl_local := bp.sl_local
    tp_local := bp.tp_local
    entry_price_est := bp.entry_price_est
    recovered_from_broker := true }

/-- Python truthiness of `state_pos.get("deal_id")`: absent, `None` and the
empty string are falsy. -/
def truthyDeal (s : Option String) : Bool :=
  match s with
  | none => false
  | some v => decide (v ≠ "")

/-- The persisted engine state, restricted to the fields the reconciler and
entry path read or write. -/
structure EngineState where
  pos : LocalPos
  last_closed_time : Option ℤ
  last_mgmt_bar : Option ℤ
  cb : CbState
deriving DecidableEq, Repr

/-- Embedding of the reconcile block at the top of each `run_bot` iteration
(`src/capbot/app/engine.py`): adopt the broker position when local state has
no deal id, clear local state when the broker shows no position, otherwise
leave the state unchanged. -/
def reconcile (st : EngineState) (broker : Option BrokerPos) : EngineState :=
  let state_deal := st.pos.deal_id
  match broker with
  | some bp =>
    if truthyDeal state_deal then st else { st with pos := adoptBroker bp }
  | none =>
    if truthyDeal state_deal then { st with pos := emptyPos } else st

/-- How the entry attempt that follows a deduplicated signal ends:
the open-position guard skips it, or an order is submitted and confirmation
either fails to produce a deal id or yields one. -/
inductive AttemptOutcome where
  | guardOpen
  | noDealId
  | filled (deal_id : String)
deriving DecidableEq, Repr

/-- Observable result of one entry evaluation of the `run_bot` loop:
the stored dedup timestamp afterwards, whether the evaluation went past the
dedup check with a signal (an entry attempt), whether `open_market` was
called, and whether a position was recorded. -/
structure EntryRes where
  last_closed_time : Option ℤ
  attempted : Bool
  orderPlaced : Bool
  opened : Bool
deriving DecidableEq, Repr

/-- The dedup guard of `run_bot`: the signal survives
`if last_closed_time and signal_bar_time <= last_closed_time: skip`
exactly when no timestamp is stored or the bar is strictly newer. -/
def afterLast (bar_t : ℤ) (last : Option ℤ) : Bool :=
  match last with
  | none => true
  | some l => decide (l < bar_t)

/-- Embedding of one flat-state entry evaluation of the `run_bot` loop
(`src/capbot/app/engine.py`, signal detection through position open): no
signal or a deduplicated bar changes nothing; past the dedup check, every
completed path — guard skip, unconfirmed order, confirmed order — stores the
signal bar's timestamp as `last_closed_time`, and `open_market` is called
on all of them except the guard skip. -/
def entryEval (last : Option ℤ) (bar_t : ℤ) (hasSignal : Bool)
    (outcome : AttemptOutcome) : EntryRes :=
  if !hasSignal then ⟨last, false, false, false⟩
  else if !(afterLast bar_t last) then ⟨last, false, false, false⟩
  else
    match outcome with
    | .guardOpen => ⟨some bar_t, true, false, false⟩
    | .noDealId => ⟨some bar_t, true, true, false⟩
    | .filled _ => ⟨some bar_t, true, true, true⟩

/-- Input of one polled entry evaluation: the closed bar's timestamp,
whether the strategy produced a signal, and how the attempt would end. -/
structure EntryInput where
  bar_t : ℤ
  hasSignal : Bool
  outcome : AttemptOutcome
deriving DecidableEq, Repr

/-- The dedup timestamp after a sequence of entry evaluations. -/
def lastAfterRun (last : Option ℤ) (l : List EntryInput) : Option ℤ :=
  l.foldl (fun acc i => (entryEval acc i.bar_t i.hasSignal i.outcome).last_closed_time) last

/-- A stored dedup timestamp is present and at least `t`. -/
def dedupLB (t : ℤ) : Option ℤ → Prop
  | none => False
  | some l => t ≤ l

/-- Method 1 of the confirmation resolver: the first deal id the
open-position poll produces within its (up to 10) probes. -/
def broker_path_id (brokerPolls : List (Option String)) : Option String :=
  (brokerPolls.take 10).findSome? id

/-- Method 2 of the confirmation resolver: the first position deal id the
confirm-by-reference probes (up to 3) produce; nothing when the order
response carried no deal reference. -/
def confirm_path_id (deal_ref : Option String) (confirms : List (Option String)) :
    Option String :=
  match deal_ref with
  | none => none
  | some _ => (confirms.take 3).findSome? id

/-- Embedding of the order-confirmation resolver in `run_bot`
(`src/capbot/app/engine.py`, after `open_market`): `brokerPolls` are the
successive results of the open-position poll (method 1, up to 10 probes),
`confirms` the successive deal ids extracted from `confirm` by deal
reference (method 2, up to 3 probes, only run when the order response
carried a reference), `lastResort` the result of the final extra
open-position probe. Runs within the fill deadline are modelled. -/
def resolve_deal_id (brokerPolls : List (Option String)) (deal_ref : Option String)
    (confirms : List (Option String)) (lastResort : Option String) : Option String :=
  let broker_deal_id := broker_path_id brokerPolls
  let confirmed_via_broker := broker_deal_id.isSome
  let did := confirm_path_id deal_ref confirms
  let deal_id := match did with
    | some i => some i
    | none => broker_deal_id
  let deal_id := if deal_id.isNone && confirmed_via_broker then broker_deal_id else deal_id
  match deal_id with
  | some i => some i
  | none => lastResort

/-- Claim C1: the reconciliation step is idempotent — for every engine state
and every broker snapshot-or-absence, applying `reconcile` twice with the
same snapshot yields exactly the state of applying it once. -/
theorem reconcile_idempotent (st : EngineState) (broker : Option BrokerPos) :
    reconcile (reconcile st broker) broker = reconcile st broker := by
  cases broker with
  | none =>
    by_cases h : truthyDeal st.pos.deal_id = true
    · have e1 : reconcile st none = { st with pos := emptyPos } := by
        simp [reconcile, h]
      rw [e1]
      simp [reconcile, emptyPos, truthyDeal]
    · have e1 : reconcile st none = st := by simp [reconcile, h]
      rw [e1, e1]
  | some bp =>
    by_cases h : truthyDeal st.pos.deal_id = true
    · have e1 : reconcile st (some bp) = st := by simp [reconcile, h]
      rw [e1, e1]
    · have e1 : reconcile st (some bp) = { st with pos := adoptBroker bp } := by
        simp [reconcile, h]
      rw [e1]
      by_cases h2 : truthyDeal (adoptBroker bp).deal_id = true
      · simp [reconcile, h2]
      · simp [reconcile, h2]

/-- Claim C4: for every open position and closed bar, when both the stop and
the target are crossed the tie-break decides deterministically — the target
price under `tp_first`, the stop price by default — and when exactly one
level is crossed, that level's price is used. -/
theorem sl_tp_exit_tie_break (tpf : Bool) (d : Direction) (bh bl sl tp : ℚ) :
    (hit_sl d bh bl sl = true → hit_tp d bh bl tp = true →
      sl_tp_exit tpf d bh bl sl tp
        = some (if tpf then (.EXIT_TP, tp) else (.EXIT_SL, sl))) ∧
    (hit_sl d bh bl sl = true → hit_tp d bh bl tp = false →
      sl_tp_exit tpf d bh bl sl tp = some (.EXIT_SL, sl)) ∧
    (hit_sl d bh bl sl = false → hit_tp d bh bl tp = true →
      sl_tp_exit tpf d bh bl sl tp = some (.EXIT_TP, tp)) := by
  refine ⟨fun h1 h2 => ?_, fun h1 h2 => ?_, fun h1 h2 => ?_⟩ <;>
    cases tpf <;> simp [sl_tp_exit, h1, h2]

/-- Witness for C4: a long bar gapping through both levels exits at the
target under `tp_first` and at the stop under the default. -/
theorem sl_tp_exit_tie_break_witness :
    sl_tp_exit true .BUY 110 90 95 105 = some (.EXIT_TP, 105) ∧
    sl_tp_exit false .BUY 110 90 95 105 = some (.EXIT_SL, 95) := by
  constructor
  · have h := (sl_tp_exit_tie_break true .BUY 110 90 95 105).1
      (by norm_num [hit_sl]) (by norm_num [hit_tp])
    simpa using h
  · have h := (sl_tp_exit_tie_break false .BUY 110 90 95 105).1
      (by norm_num [hit_sl]) (by norm_num [hit_tp])
    simpa using h

/-- Claim C5: on every realized exit a losing trade increments the
consecutive-loss counter, a non-losing one resets it to zero; whenever the
incremented counter reaches the threshold the cooldown deadline becomes
exactly `now + cooldown`, and the counter keeps its triggering value. -/
theorem circuit_breaker_transition (s : CbState) (pl : ℚ) (losses : ℕ)
    (now cool : ℤ) :
    ((pl < 0 → (circuit_breaker_step s pl losses now cool).consec_losses
        = s.consec_losses + 1) ∧
     (0 ≤ pl → (circuit_breaker_step s pl losses now cool).consec_losses = 0)) ∧
    ((circuit_breaker_step s pl losses now cool).consec_losses ≥ losses →
      (circuit_breaker_step s pl losses now cool).cooldown_until
        = some (now + cool)) ∧
    ((circuit_breaker_step s pl losses now cool).consec_losses < losses →
      (circuit_breaker_step s pl losses now cool).cooldown_until
        = s.cooldown_until) ∧
    (pl < 0 → losses ≤ s.consec_losses + 1 →
      (circuit_breaker_step s pl losses now cool).consec_losses
          = s.consec_losses + 1 ∧
        (circuit_breaker_step s pl losses now cool).cooldown_until
          = some (now + cool)) := by
  refine ⟨⟨fun hpl => ?_, fun h0 => ?_⟩, fun hge => ?_, fun hlt => ?_,
    fun hpl htr => ?_⟩
  · simp only [circuit_breaker_step, if_pos hpl]
    split_ifs <;> rfl
  · simp only [circuit_breaker_step, if_neg (not_lt.mpr h0)]
    split_ifs <;> rfl
  · by_cases hc : (if pl < 0 then s.consec_losses + 1 else 0) ≥ losses
    · simp [circuit_breaker_step, hc]
    · exfalso
      simp [circuit_breaker_step, hc] at hge
  · by_cases hc : (if pl < 0 then s.consec_losses + 1 else 0) ≥ losses
    · have hlt' : (if pl < 0 then s.consec_losses + 1 else 0) < losses := by
        simpa [circuit_breaker_step, hc] using hlt
      exact absurd hc (not_le.mpr hlt')
    · simp [circuit_breaker_step, hc]
  · constructor
    · simp only [circuit_breaker_step, if_pos hpl]
      split_ifs <;> rfl
    · simp [circuit_breaker_step, hpl, htr]

/-- Witness for C5: a third consecutive losing exit with threshold 3 sets a
60-minute cooldown from `now = 0` and leaves the counter at 3. -/
theorem circuit_breaker_transition_witness :
    (circuit_breaker_step ⟨2, none⟩ (-5) 3 0 60).consec_losses = 2 + 1 ∧
    (circuit_breaker_step ⟨2, none⟩ (-5) 3 0 60).cooldown_until = some (0 + 60) :=
  (circuit_breaker_transition ⟨2, none⟩ (-5) 3 0 60).2.2.2
    (by norm_num) (by norm_num)

/-- On the all-positive path, `calc_position_size` computes
`max(min, floor(raw))`, capped by the effective maximum when one is given. -/
theorem calc_position_size_pos_eval (e rf r v m : ℚ) (mx : Option FVal)
    (he : 0 < e) (hrf0 : 0 < rf) (hrf1 : rf ≤ 1) (hr : 0 < r) (hv : 0 < v) :
    calc_position_size (some e) (some rf) (some r) (some v) (some m) mx
      = match mx with
        | some (some q) =>
            min (if q < max 0 m then max 0 m else q)
              (max (max 0 m) ((⌊e * rf / (r * v)⌋ : ℤ) : ℚ))
        | _ => max (max 0 m) ((⌊e * rf / (r * v)⌋ : ℤ) : ℚ) := by
  have hrp : max 0 (min 1 rf) = rf := by
    rw [min_eq_right hrf1]
    exact max_eq_right hrf0.le
  have hcond : ¬ (e ≤ 0 ∨ rf ≤ 0 ∨ r ≤ 0 ∨ v ≤ 0) := by
    push_neg
    exact ⟨he, hrf0, hr, hv⟩
  have hdenom : (0:ℚ) < r * v := mul_pos hr hv
  have hraw : (0:ℚ) < e * rf / (r * v) := div_pos (mul_pos he hrf0) hdenom
  simp only [calc_position_size, sanitize, Option.getD_some, hrp, if_neg hcond,
    if_neg (not_le.mpr hdenom), if_neg (not_le.mpr hraw)]
  rcases mx with - | (- | q) <;> rfl

/-- Counterexample to C8 as stated: with equity 1, risk fraction 1,
`r_points` 1000, value-per-point 1 and the default minimum 1, the floor of
`equity·risk_fraction/(r_points·value_per_point)` is 0, yet the function
returns 1 — the returned size is not the floor of the quotient. -/
theorem calc_position_size_not_floor :
    calc_position_size (some 1) (some 1) (some 1000) (some 1) (some 1) none = 1 ∧
    ((⌊(1:ℚ) * 1 / (1000 * 1)⌋ : ℤ) : ℚ) = 0 := by
  constructor
  · norm_num [calc_position_size, sanitize]
  · norm_num

/-- Claim C8 (amended): for all finite inputs with equity > 0,
risk_fraction ∈ (0,1], r_points > 0 and value_per_point > 0, the returned
size is `max(min_size, floor(equity·risk_fraction/(r_points·value_per_point)))`
(with the minimum sanitized to `max 0 min_size`, and capped at the effective
maximum when a finite max_size is supplied); in particular the size equals
the floor whenever the floor is at least the minimum, and it is never below
the sanitized minimum. -/
theorem calc_position_size_formula (e rf r v m : ℚ) (mx : Option FVal)
    (he : 0 < e) (hrf0 : 0 < rf) (hrf1 : rf ≤ 1) (hr : 0 < r) (hv : 0 < v) :
    calc_position_size (some e) (some rf) (some r) (some v) (some m) none
      = max (max 0 m) ((⌊e * rf / (r * v)⌋ : ℤ) : ℚ) ∧
    (∀ q : ℚ, mx = some (some q) →
      calc_position_size (some e) (some rf) (some r) (some v) (some m) mx
        = min (max (max 0 m) q)
            (max (max 0 m) ((⌊e * rf / (r * v)⌋ : ℤ) : ℚ))) ∧
    max 0 m ≤ calc_position_size (some e) (some rf) (some r) (some v) (some m) mx := by
  have hcap : ∀ q : ℚ, (if q < max 0 m then max 0 m else q) = max (max 0 m) q := by
    intro q
    split_ifs with h
    · exact (max_eq_left h.le).symm
    · exact (max_eq_right (not_lt.mp h)).symm
  refine ⟨?_, fun q hq => ?_, ?_⟩
  · rw [calc_position_size_pos_eval e rf r v m none he hrf0 hrf1 hr hv]
  · rw [calc_position_size_pos_eval e rf r v m mx he hrf0 hrf1 hr hv, hq]
    simp only [hcap]
  · rw [calc_position_size_pos_eval e rf r v m mx he hrf0 hrf1 hr hv]
    rcases mx with - | (- | q)
    · exact le_max_left _ _
    · exact le_max_left _ _
    · refine le_min ?_ (le_max_left _ _)
      rw [hcap q]
      exact le_max_left _ _

/-- Witness for C8 (amended): the spec scenario — equity 25000, risk
fraction 0.02, r_points 10, value-per-point 1, minimum 1 — yields size 50,
and 50 is `max(max 0 1, floor 50)`. -/
theorem calc_position_size_formula_witness :
    calc_position_size (some 25000) (some (2/100)) (some 10) (some 1) (some 1) none
      = max (max 0 1) ((⌊(25000:ℚ) * (2/100) / (10 * 1)⌋ : ℤ) : ℚ) ∧
    max (max 0 1) ((⌊(25000:ℚ) * (2/100) / (10 * 1)⌋ : ℤ) : ℚ) = 50 := by
  constructor
  · exact (calc_position_size_formula 25000 (2/100) 10 1 1 none (by norm_num)
      (by norm_num) (by norm_num) (by norm_num) (by norm_num)).1
  · have h50 : (25000:ℚ) * (2/100) / (10 * 1) = ((50:ℤ):ℚ) := by norm_num
    rw [h50, Int.floor_intCast]
    norm_num

/-- Claim C9: for every input where equity, risk fraction, stop distance or
value-per-point is non-finite (modelled as `none`, sanitized to 0) or
non-positive, `calc_position_size` returns the configured minimum size
(given as a genuine size, i.e. finite and ≥ 0); the embedding is a total
function, so no exception is possible. -/
theorem calc_position_size_fail_closed (e rf r v : FVal) (m : ℚ) (mx : Option FVal)
    (hm : 0 ≤ m)
    (h : sanitize e 0 ≤ 0 ∨ sanitize rf 0 ≤ 0 ∨ sanitize r 0 ≤ 0 ∨ sanitize v 0 ≤ 0) :
    calc_position_size e rf r v (some m) mx = m := by
  have hcond : sanitize e 0 ≤ 0 ∨ max 0 (min 1 (sanitize rf 0)) ≤ 0 ∨
      sanitize r 0 ≤ 0 ∨ sanitize v 0 ≤ 0 := by
    rcases h with h | h | h | h
    · exact Or.inl h
    · exact Or.inr (Or.inl (max_le le_rfl (le_trans (min_le_right _ _) h)))
    · exact Or.inr (Or.inr (Or.inl h))
    · exact Or.inr (Or.inr (Or.inr h))
  simp only [calc_position_size, if_pos hcond]
  simp [sanitize, max_eq_right hm]

/-- Witness for C9: negative equity with the default minimum 1 returns 1. -/
theorem calc_position_size_fail_closed_witness :
    calc_position_size (some (-1)) (some (2/100)) (some 10) (some 1) (some 1) none = 1 :=
  calc_position_size_fail_closed (some (-1)) (some (2/100)) (some 10) (some 1) 1 none
    (by norm_num) (Or.inl (by norm_num [sanitize]))

/-- Claim C10: every result of `calc_position_size` is at least the
sanitized minimum (`min_size` clamped to ≥ 0, defaulting to 1 when
non-finite), and at most the effective maximum when a finite `max_size` is
supplied — where a cap below the minimum is raised to the minimum, so the
result is never below the sanitized minimum even with a conflicting cap. -/
theorem calc_position_size_bounds (e rf r v ms0 : FVal) (mx : Option FVal) :
    max 0 (sanitize ms0 1) ≤ calc_position_size e rf r v ms0 mx ∧
    (∀ q : ℚ, mx = some (some q) →
      calc_position_size e rf r v ms0 mx
        ≤ (if q < max 0 (sanitize ms0 1) then max 0 (sanitize ms0 1) else q)) := by
  have hcap : ∀ q : ℚ,
      (if q < max 0 (sanitize ms0 1) then max 0 (sanitize ms0 1) else q)
        = max (max 0 (sanitize ms0 1)) q := by
    intro q
    split_ifs with h
    · exact (max_eq_left h.le).symm
    · exact (max_eq_right (not_lt.mp h)).symm
  rcases mx with - | (- | q0)
  · refine ⟨?_, fun q hq => by simp at hq⟩
    simp only [calc_position_size]
    split_ifs <;> first | exact le_rfl | exact le_max_left _ _
  · refine ⟨?_, fun q hq => by simp at hq⟩
    simp only [calc_position_size]
    split_ifs <;> first | exact le_rfl | exact le_max_left _ _
  · refine ⟨?_, fun q hq => ?_⟩
    · simp only [calc_position_size, hcap]
      split_ifs <;>
        first
          | exact le_rfl
          | exact le_min (le_max_left _ _) (le_max_left _ _)
    · have hq0 : q0 = q := by
        simp only [Option.some.injEq] at hq
        exact hq
      subst hq0
      rw [hcap q0]
      simp only [calc_position_size, hcap]
      split_ifs
      · exact le_max_left _ _
      · exact le_max_left _ _
      · exact le_max_left _ _
      · exact min_le_left _ _

/-- One option-A trailing call never lowers a long's stop. -/
theorem trailA_buy_sl_le (entry live r cur : ℚ) (t1 t2 : Bool) (buf : ℚ) :
    cur ≤ (maybe_trail_option_a .BUY entry live r cur t1 t2 buf).sl := by
  simp only [maybe_trail_option_a, profit_points]
  split_ifs <;>
    first
      | exact le_rfl
      | (simp only [betterSL, Bool.and_eq_true, decide_eq_true_eq] at *
         linarith)

/-- One option-A trailing call never raises a short's stop. -/
theorem trailA_sell_le_sl (entry live r cur : ℚ) (t1 t2 : Bool) (buf : ℚ) :
    (maybe_trail_option_a .SELL entry live r cur t1 t2 buf).sl ≤ cur := by
  simp only [maybe_trail_option_a, profit_points]
  split_ifs <;>
    first
      | exact le_rfl
      | (simp only [betterSL, Bool.and_eq_true, decide_eq_true_eq] at *
         linarith)

/-- `trail_1r_done` is latched: once true it stays true. -/
theorem trailA_t1_latched (d : Direction) (entry live r cur : ℚ) (t2 : Bool) (buf : ℚ) :
    (maybe_trail_option_a d entry live r cur true t2 buf).flags.trail_1r_done = true := by
  simp only [maybe_trail_option_a]
  split_ifs <;> simp

/-- `trail_2r_done` is latched: once true it stays true. -/
theorem trailA_t2_latched (d : Direction) (entry live r cur : ℚ) (t1 : Bool) (buf : ℚ) :
    (maybe_trail_option_a d entry live r cur t1 true buf).flags.trail_2r_done = true := by
  simp only [maybe_trail_option_a]
  split_ifs <;> simp

theorem trailRun_append (d : Direction) (e r b : ℚ) (s : TrailState) (l₁ l₂ : List ℚ) :
    trailRun d e r b s (l₁ ++ l₂) = trailRun d e r b (trailRun d e r b s l₁) l₂ := by
  simp [trailRun, List.foldl_append]

theorem trailRun_sl_buy (e r b : ℚ) (s : TrailState) (l : List ℚ) :
    s.sl ≤ (trailRun .BUY e r b s l).sl := by
  induction l generalizing s with
  | nil => exact le_rfl
  | cons a t ih =>
    exact le_trans (trailA_buy_sl_le e a r s.sl s.t1 s.t2 b)
      (ih (trailStep .BUY e r b s a))

theorem trailRun_sl_sell (e r b : ℚ) (s : TrailState) (l : List ℚ) :
    (trailRun .SELL e r b s l).sl ≤ s.sl := by
  induction l generalizing s with
  | nil => exact le_rfl
  | cons a t ih =>
    exact le_trans (ih (trailStep .SELL e r b s a))
      (trailA_sell_le_sl e a r s.sl s.t1 s.t2 b)

theorem trailRun_t1_mono (d : Direction) (e r b : ℚ) (s : TrailState) (l : List ℚ)
    (h : s.t1 = true) : (trailRun d e r b s l).t1 = true := by
  induction l generalizing s with
  | nil => exact h
  | cons a t ih =>
    refine ih (trailStep d e r b s a) ?_
    show (maybe_trail_option_a d e a r s.sl s.t1 s.t2 b).flags.trail_1r_done = true
    rw [h]
    exact trailA_t1_latched d e a r s.sl s.t2 b

theorem trailRun_t2_mono (d : Direction) (e r b : ℚ) (s : TrailState) (l : List ℚ)
    (h : s.t2 = true) : (trailRun d e r b s l).t2 = true := by
  induction l generalizing s with
  | nil => exact h
  | cons a t ih =>
    refine ih (trailStep d e r b s a) ?_
    show (maybe_trail_option_a d e a r s.sl s.t1 s.t2 b).flags.trail_2r_done = true
    rw [h]
    exact trailA_t2_latched d e a r s.sl s.t1 b

/-- Claim C6: across any sequence of option-A trailing calls that threads
the returned stop and flags back in, the stop never decreases for a BUY and
never increases for a SELL, and each of the +1R and +2R threshold moves
(latching its flag from false to true) happens at most once: once a step
fires a threshold, no later step in the threaded sequence fires it again. -/
theorem trail_option_a_monotone_latched (d : Direction) (entry r buf : ℚ)
    (s : TrailState) (lives : List ℚ) :
    (d = .BUY → s.sl ≤ (trailRun d entry r buf s lives).sl) ∧
    (d = .SELL → (trailRun d entry r buf s lives).sl ≤ s.sl) ∧
    (∀ l₁ a l₂ b',
      fires1R d entry r buf (trailRun d entry r buf s l₁) a = true →
      fires1R d entry r buf (trailRun d entry r buf s (l₁ ++ a :: l₂)) b' = false) ∧
    (∀ l₁ a l₂ b',
      fires2R d entry r buf (trailRun d entry r buf s l₁) a = true →
      fires2R d entry r buf (trailRun d entry r buf s (l₁ ++ a :: l₂)) b' = false) := by
  refine ⟨fun hd => ?_, fun hd => ?_, fun l₁ a l₂ b' h => ?_, fun l₁ a l₂ b' h => ?_⟩
  · subst hd
    exact trailRun_sl_buy entry r buf s lives
  · subst hd
    exact trailRun_sl_sell entry r buf s lives
  · have hstep : (trailStep d entry r buf (trailRun d entry r buf s l₁) a).t1 = true := by
      simp only [fires1R, Bool.and_eq_true] at h
      exact h.2
    have hrun : (trailRun d entry r buf s (l₁ ++ a :: l₂)).t1 = true := by
      rw [trailRun_append]
      show (trailRun d entry r buf
        (trailStep d entry r buf (trailRun d entry r buf s l₁) a) l₂).t1 = true
      exact trailRun_t1_mono d entry r buf _ l₂ hstep
    simp [fires1R, hrun]
  · have hstep : (trailStep d entry r buf (trailRun d entry r buf s l₁) a).t2 = true := by
      simp only [fires2R, Bool.and_eq_true] at h
      exact h.2
    have hrun : (trailRun d entry r buf s (l₁ ++ a :: l₂)).t2 = true := by
      rw [trailRun_append]
      show (trailRun d entry r buf
        (trailStep d entry r buf (trailRun d entry r buf s l₁) a) l₂).t2 = true
      exact trailRun_t2_mono d entry r buf _ l₂ hstep
    simp [fires2R, hrun]

/-- Witness for C6: the spec scenario threaded through the run — long from
entry 100, r_points 10, buffer 0.1, stop 98: after the bar at 111 the stop
is at least 98; the +1R threshold fires on that bar, and afterwards it can
never fire again. -/
theorem trail_option_a_monotone_latched_witness :
    (98 : ℚ) ≤ (trailRun .BUY 100 10 (1/10) ⟨98, false, false⟩ [111]).sl ∧
    fires1R .BUY 100 10 (1/10)
      (trailRun .BUY 100 10 (1/10) ⟨98, false, false⟩ ([] ++ 111 :: [])) 120 = false :=
  ⟨(trail_option_a_monotone_latched .BUY 100 10 (1/10) ⟨98, false, false⟩ [111]).1 rfl,
   (trail_option_a_monotone_latched .BUY 100 10 (1/10) ⟨98, false, false⟩ []).2.2.1
     [] 111 [] 120
     (by norm_num [fires1R, trailRun, trailStep, maybe_trail_option_a,
        profit_points, betterSL])⟩

/-- Witness for C10: a configured cap of 2 below the configured minimum 5 is
raised to the minimum — the result stays between 5 and the raised cap. -/
theorem calc_position_size_bounds_witness :
    max 0 (sanitize (some 5) 1)
      ≤ calc_position_size (some 100) (some 1) (some 1) (some 1) (some 5) (some (some 2)) ∧
    calc_position_size (some 100) (some 1) (some 1) (some 1) (some 5) (some (some 2))
      ≤ (if (2:ℚ) < max 0 (sanitize (some 5) 1) then max 0 (sanitize (some 5) 1) else 2) :=
  ⟨(calc_position_size_bounds (some 100) (some 1) (some 1) (some 1) (some 5) (some (some 2))).1,
   (calc_position_size_bounds (some 100) (some 1) (some 1) (some 1) (some 5) (some (some 2))).2 2 rfl⟩

/-- Counterexample to C7 as stated: with `atr_entry = 0` the function takes
its early return, so a long whose bar high 105 has moved past entry 100
keeps its stop at 90, below the entry — the breakeven lock does not engage
for every input. -/
theorem trail_sp500_spec_zero_atr_no_lock :
    (trail_sp500_spec .BUY 100 0 90 false 100 100 105 99).sl = 90 ∧
    (90 : ℚ) < 100 ∧ (100 : ℚ) < 105 := by
  refine ⟨?_, by norm_num, by norm_num⟩
  norm_num [trail_sp500_spec]

/-- Claim C7 (amended): favorable-extreme trailing never moves the stop
against the trade (for every input the returned stop is ≥ the current stop
for a BUY and ≤ it for a SELL), and — provided `atr_entry > 0`, the only
case in which the function trails at all — once price has moved favorably
past entry (bar high above entry for a BUY, bar low below for a SELL, now
or earlier via `be_armed`), the returned stop is never below (BUY) / above
(SELL) the entry price, even when the ATR-trail candidate would be worse. -/
theorem trail_sp500_spec_monotone_be_lock (d : Direction) (entry atr sl : ℚ)
    (be : Bool) (mf mn bh bl : ℚ) :
    (d = .BUY → sl ≤ (trail_sp500_spec d entry atr sl be mf mn bh bl).sl) ∧
    (d = .SELL → (trail_sp500_spec d entry atr sl be mf mn bh bl).sl ≤ sl) ∧
    (0 < atr → d = .BUY → (be = true ∨ entry < bh) →
      entry ≤ (trail_sp500_spec d entry atr sl be mf mn bh bl).sl) ∧
    (0 < atr → d = .SELL → (be = true ∨ bl < entry) →
      (trail_sp500_spec d entry atr sl be mf mn bh bl).sl ≤ entry) := by
  refine ⟨fun hd => ?_, fun hd => ?_, fun hatr hd hbe => ?_, fun hatr hd hbe => ?_⟩
  · subst hd
    simp only [trail_sp500_spec]
    split_ifs <;>
      first
        | exact le_rfl
        | exact le_max_left _ _
        | exact le_trans (le_max_left _ _) (le_max_left _ _)
  · subst hd
    simp only [trail_sp500_spec]
    split_ifs <;>
      first
        | exact le_rfl
        | exact min_le_left _ _
        | exact le_trans (min_le_left _ _) (min_le_left _ _)
  · subst hd
    have hba : (be || decide (entry < bh)) = true := by
      rcases hbe with hbe | hbe <;> simp [hbe]
    simp only [trail_sp500_spec, if_neg (not_le.mpr hatr), hba]
    simp
  · subst hd
    have hba : (be || decide (bl < entry)) = true := by
      rcases hbe with hbe | hbe <;> simp [hbe]
    simp only [trail_sp500_spec, if_neg (not_le.mpr hatr), hba]
    simp

/-- Witness for C7 (amended): a long from entry 100 with ATR 2, stop 95,
bar high 105 — the returned stop is at least the old stop and, price having
moved past entry, at least the entry. -/
theorem trail_sp500_spec_monotone_be_lock_witness :
    (95 : ℚ) ≤ (trail_sp500_spec .BUY 100 2 95 false 100 100 105 99).sl ∧
    (100 : ℚ) ≤ (trail_sp500_spec .BUY 100 2 95 false 100 100 105 99).sl :=
  ⟨(trail_sp500_spec_monotone_be_lock .BUY 100 2 95 false 100 100 105 99).1 rfl,
   (trail_sp500_spec_monotone_be_lock .BUY 100 2 95 false 100 100 105 99).2.2.1
     (by norm_num) rfl (Or.inr (by norm_num))⟩

/-- An entry evaluation never loses a stored dedup lower bound. -/
theorem entryEval_last_lb (t : ℤ) (last : Option ℤ) (u : ℤ) (sg : Bool)
    (o : AttemptOutcome) (h : dedupLB t last) :
    dedupLB t (entryEval last u sg o).last_closed_time := by
  cases last with
  | none => simp [dedupLB] at h
  | some l =>
    have hl : t ≤ l := h
    cases sg with
    | false => simpa [entryEval] using hl
    | true =>
      by_cases ha : afterLast u (some l) = true
      · have hlu : l < u := by simpa [afterLast] using ha
        cases o <;> simp [entryEval, ha, dedupLB] <;> omega
      · cases o <;> simpa [entryEval, ha] using hl

/-- A run of entry evaluations never loses a stored dedup lower bound. -/
theorem lastAfterRun_lb (t : ℤ) (last : Option ℤ) (l : List EntryInput)
    (h : dedupLB t last) : dedupLB t (lastAfterRun last l) := by
  induction l generalizing last with
  | nil => exact h
  | cons x xs ih =>
    exact ih _ (entryEval_last_lb t last x.bar_t x.hasSignal x.outcome h)

/-- After an evaluation that saw a signal on the bar at `t`, the stored
dedup timestamp is present and at least `t`. -/
theorem entryEval_first_lb (last : Option ℤ) (t : ℤ) (o : AttemptOutcome) :
    dedupLB t (entryEval last t true o).last_closed_time := by
  cases last with
  | none => cases o <;> simp [entryEval, afterLast, dedupLB]
  | some l =>
    by_cases ha : afterLast t (some l) = true
    · cases o <;> simp [entryEval, ha, dedupLB]
    · have hlt : ¬ l < t := by simpa [afterLast] using ha
      cases o <;> simp [entryEval, ha, dedupLB] <;> omega

/-- Claim C2: a signal is acted on (and an order possibly placed) only when
its closed bar's timestamp is strictly after the stored `last_closed_time`;
every entry attempt — including one abandoned without a position id —
stores that bar's timestamp; and after such an evaluation, for any number of
further polls, another evaluation of a bar at the same (or an earlier)
timestamp makes no attempt and places no order. -/
theorem signal_dedup_single_attempt (last : Option ℤ) (t : ℤ)
    (o₁ : AttemptOutcome) (mid : List EntryInput) (t₂ : ℤ) (sg₂ : Bool)
    (o₂ : AttemptOutcome) :
    ((entryEval last t true o₁).attempted = true → afterLast t last = true) ∧
    ((entryEval last t true o₁).orderPlaced = true → afterLast t last = true) ∧
    ((entryEval last t true o₁).attempted = true →
      (entryEval last t true o₁).last_closed_time = some t) ∧
    (t₂ ≤ t →
      (entryEval (lastAfterRun (entryEval last t true o₁).last_closed_time mid)
          t₂ sg₂ o₂).attempted = false ∧
      (entryEval (lastAfterRun (entryEval last t true o₁).last_closed_time mid)
          t₂ sg₂ o₂).orderPlaced = false) := by
  refine ⟨fun h => ?_, fun h => ?_, fun h => ?_, fun ht => ?_⟩
  · by_cases ha : afterLast t last = true
    · exact ha
    · exfalso
      cases o₁ <;> simp [entryEval, ha] at h
  · by_cases ha : afterLast t last = true
    · exact ha
    · exfalso
      cases o₁ <;> simp [entryEval, ha] at h
  · by_cases ha : afterLast t last = true
    · cases o₁ <;> simp [entryEval, ha]
    · exfalso
      cases o₁ <;> simp [entryEval, ha] at h
  · have hlb : dedupLB t
        (lastAfterRun (entryEval last t true o₁).last_closed_time mid) :=
      lastAfterRun_lb t _ mid (entryEval_first_lb last t o₁)
    rcases hE : lastAfterRun (entryEval last t true o₁).last_closed_time mid with - | l'
    · rw [hE] at hlb
      simp [dedupLB] at hlb
    · rw [hE] at hlb
      have htl : t ≤ l' := hlb
      have hfa : afterLast t₂ (some l') = false := by
        simp only [afterLast, decide_eq_false_iff_not]
        omega
      cases sg₂ <;> cases o₂ <;> simp [entryEval, hfa]

/-- Witness for C2: a first signal on the bar at time 5 (state empty, order
filled) stores `last_closed_time = 5`; an immediate second evaluation of the
same bar attempts nothing and places no order. -/
theorem signal_dedup_single_attempt_witness :
    (entryEval none 5 true (.filled "D1")).last_closed_time = some 5 ∧
    (entryEval (lastAfterRun (entryEval none 5 true (.filled "D1")).last_closed_time [])
        5 true (.filled "D2")).attempted = false ∧
    (entryEval (lastAfterRun (entryEval none 5 true (.filled "D1")).last_closed_time [])
        5 true (.filled "D2")).orderPlaced = false :=
  ⟨(signal_dedup_single_attempt none 5 (.filled "D1") [] 5 true (.filled "D2")).2.2.1 rfl,
   ((signal_dedup_single_attempt none 5 (.filled "D1") [] 5 true (.filled "D2")).2.2.2 le_rfl).1,
   ((signal_dedup_single_attempt none 5 (.filled "D1") [] 5 true (.filled "D2")).2.2.2 le_rfl).2⟩

/-- Counterexample to C3 as stated: the broker's open-position poll (run to
completion first) finds id "B", the confirm-by-reference lookup then yields
id "C" — both paths yield an id, yet the resolver adopts "C", not the
broker-list id "B": the confirmation path, not broker state, wins. -/
theorem resolver_broker_id_not_authoritative :
    resolve_deal_id [some "B"] (some "REF") [some "C"] none = some "C" ∧
    broker_path_id [some "B"] = some "B" ∧
    ("C" : String) ≠ "B" := by
  refine ⟨rfl, rfl, by decide⟩

/-- Claim C3 (amended): in the confirmation resolver, an id resolved by the
confirm-by-reference lookup is the one adopted, overriding any id the
broker's open-position poll found; the broker-list id is adopted exactly
when the confirm path yields no id, and the last-resort probe only when
both paths yield none. -/
theorem resolve_deal_id_confirm_priority (bps : List (Option String))
    (ref : Option String) (cfs : List (Option String)) (lr : Option String) :
    (∀ c, confirm_path_id ref cfs = some c →
      resolve_deal_id bps ref cfs lr = some c) ∧
    (confirm_path_id ref cfs = none →
      ∀ b, broker_path_id bps = some b → resolve_deal_id bps ref cfs lr = some b) ∧
    (confirm_path_id ref cfs = none → broker_path_id bps = none →
      resolve_deal_id bps ref cfs lr = lr) := by
  refine ⟨fun c hc => ?_, fun hn b hb => ?_, fun hn hb => ?_⟩
  · simp [resolve_deal_id, hc]
  · simp [resolve_deal_id, hn, hb]
  · simp [resolve_deal_id, hn, hb]

/-- Witness for C3 (amended): with both paths yielding an id the confirm id
"C" is adopted; with no deal reference the broker id "B" is adopted. -/
theorem resolve_deal_id_confirm_priority_witness :
    resolve_deal_id [some "B"] (some "R") [some "C"] none = some "C" ∧
    resolve_deal_id [some "B"] none [] none = some "B" :=
  ⟨(resolve_deal_id_confirm_priority [some "B"] (some "R") [some "C"] none).1 "C" rfl,
   (resolve_deal_id_confirm_priority [some "B"] none [] none).2.1 rfl "B" rfl⟩

end Capbot
